import Mathlib

/-!
Verification development for the feed-assembly / view-hydration pipeline of the
atproto repository.  The definitions below are a shallow embedding of:

* `packages/pds/src/app-view/services/feed/index.ts` (FeedService: batch
  loaders, embed resolution, feed hydration, `truncateUtf8`,
  `getRecordEmbedView`),
* `packages/bsky/src/api/app/bsky/feed/getFeed.ts` (skeleton / rules /
  presentation pipeline stages and upstream error mapping).

JavaScript strings are modelled as lists of Unicode scalar values
(`List Nat`), UTF-8 byte strings as `List Nat`, JavaScript objects used as
maps as functions `κ → Option α` (object spread `{...acc, [k]: v}` is the
pointwise update `objSet`), and database/collaborator access as explicit
environments together with a call trace (`DbCall`).
-/

set_option autoImplicit false

/-- A Unicode scalar value: in range and not a surrogate.  `TextEncoder`
input code points (from well-formed JS strings) satisfy this. -/
def ValidScalar (c : Nat) : Prop :=
  c < 0x110000 ∧ (c < 0xD800 ∨ 0xDFFF < c)

instance (c : Nat) : Decidable (ValidScalar c) := by
  unfold ValidScalar; infer_instance

/-- UTF-8 encoding of a single code point (the WHATWG `TextEncoder`
behaviour on scalar values). -/
def utf8EncodeChar (c : Nat) : List Nat :=
  if c < 0x80 then [c]
  else if c < 0x800 then [0xC0 + c / 64, 0x80 + c % 64]
  else if c < 0x10000 then
    [0xE0 + c / 4096, 0x80 + (c / 64) % 64, 0x80 + c % 64]
  else
    [0xF0 + c / 0x40000, 0x80 + (c / 4096) % 64, 0x80 + (c / 64) % 64,
      0x80 + c % 64]

/-- UTF-8 encoding of a string (`new TextEncoder().encode(str)`). -/
def utf8Encode : List Nat → List Nat
  | [] => []
  | c :: cs => utf8EncodeChar c ++ utf8Encode cs

/-- WHATWG UTF-8 decode with replacement
(`new TextDecoder('utf-8', { fatal: false }).decode(bytes)`): malformed
sequences decode to U+FFFD; an incomplete sequence at end of input yields a
single U+FFFD; an invalid continuation byte is not consumed (it is
re-processed as a fresh lead byte). -/
def utf8Decode : List Nat → List Nat
  | [] => []
  | b :: rest =>
    if b ≤ 0x7F then b :: utf8Decode rest
    else if b ≤ 0xC1 then 0xFFFD :: utf8Decode rest
    else if b ≤ 0xDF then
      match rest with
      | [] => [0xFFFD]
      | b2 :: rest2 =>
        if 0x80 ≤ b2 ∧ b2 ≤ 0xBF then
          ((b - 0xC0) * 64 + (b2 - 0x80)) :: utf8Decode rest2
        else 0xFFFD :: utf8Decode (b2 :: rest2)
    else if b ≤ 0xEF then
      match rest with
      | [] => [0xFFFD]
      | b2 :: rest2 =>
        if (if b = 0xE0 then 0xA0 else 0x80) ≤ b2 ∧
            b2 ≤ (if b = 0xED then 0x9F else 0xBF) then
          match rest2 with
          | [] => [0xFFFD]
          | b3 :: rest3 =>
            if 0x80 ≤ b3 ∧ b3 ≤ 0xBF then
              ((b - 0xE0) * 4096 + (b2 - 0x80) * 64 + (b3 - 0x80)) ::
                utf8Decode rest3
            else 0xFFFD :: utf8Decode (b3 :: rest3)
        else 0xFFFD :: utf8Decode (b2 :: rest2)
    else if b ≤ 0xF4 then
      match rest with
      | [] => [0xFFFD]
      | b2 :: rest2 =>
        if (if b = 0xF0 then 0x90 else 0x80) ≤ b2 ∧
            b2 ≤ (if b = 0xF4 then 0x8F else 0xBF) then
          match rest2 with
          | [] => [0xFFFD]
          | b3 :: rest3 =>
            if 0x80 ≤ b3 ∧ b3 ≤ 0xBF then
              match rest3 with
              | [] => [0xFFFD]
              | b4 :: rest4 =>
                if 0x80 ≤ b4 ∧ b4 ≤ 0xBF then
                  ((b - 0xF0) * 0x40000 + (b2 - 0x80) * 4096 +
                      (b3 - 0x80) * 64 + (b4 - 0x80)) :: utf8Decode rest4
                else 0xFFFD :: utf8Decode (b4 :: rest4)
            else 0xFFFD :: utf8Decode (b3 :: rest3)
        else 0xFFFD :: utf8Decode (b2 :: rest2)
    else 0xFFFD :: utf8Decode rest

/-- JS `str.replace(/�$/, '')`: removes one trailing U+FFFD if the
string ends with one. -/
def stripTrailingReplacement (s : List Nat) : List Nat :=
  if s.getLast? = some 0xFFFD then s.dropLast else s

/-- Embeds `truncateUtf8` from
`packages/pds/src/app-view/services/feed/index.ts`: encode to UTF-8; if the
byte length exceeds the budget, decode the byte prefix with replacement and
strip one trailing U+FFFD; otherwise return the string unchanged.  (The
source's falsy-guard `if (!str) return str` coincides on the empty string
with the not-longer branch; `null`/`undefined` inputs are handled at the
`Option` level by callers, see `displayNameView`.) -/
def truncateUtf8 (s : List Nat) (length : Nat) : List Nat :=
  let utf8 := utf8Encode s
  if utf8.length > length then
    stripTrailingReplacement (utf8Decode (utf8.take length))
  else s

/-- Empty JS object viewed as a map. -/
def objEmpty {κ α : Type} : κ → Option α := fun _ => none

/-- JS object update `{...m, [k]: v}` viewed as a map. -/
def objSet {κ α : Type} [DecidableEq κ] (m : κ → Option α) (k : κ) (v : α) :
    κ → Option α :=
  fun x => if x = k then some v else m x

/-- Insertion into a JS `Set` (membership-deduplicating, insertion order
preserved). -/
def insertUnique {α : Type} [DecidableEq α] (l : List α) (x : α) : List α :=
  if x ∈ l then l else l ++ [x]

/-- Parsed at-uri (`new AtUri(uri)` exposing `hostname` and `collection`;
identifiers of the form `at://{authority}/{collection}/{rkey}`). -/
structure AtUri where
  hostname : String
  collection : String
  rkey : String
deriving DecidableEq, Repr

/-- String form of an at-uri (used when at-uris are passed to the label
service as plain subject strings). -/
def atUriToString (u : AtUri) : String :=
  "at://" ++ u.hostname ++ "/" ++ u.collection ++ "/" ++ u.rkey

def appBskyFeedPost : String := "app.bsky.feed.post"
def appBskyFeedGenerator : String := "app.bsky.feed.generator"
def appBskyGraphList : String := "app.bsky.graph.list"

/-- An image inside an `app.bsky.embed.images` main object. -/
structure ImageObj where
  imageCid : String
  alt : String
deriving DecidableEq, Repr

/-- An `app.bsky.embed.external` main object. -/
structure ExternalObj where
  uri : String
  title : String
  description : String
  thumbCid : Option String
deriving DecidableEq, Repr

/-- A strong record reference (`{uri, cid}`). -/
structure RecordRef where
  uri : AtUri
  cid : String
deriving DecidableEq, Repr

/-- Media half of an `app.bsky.embed.recordWithMedia` main object; media of
any other type is dropped by `embedsForPosts`. -/
inductive EmbedMedia where
  | images (imgs : List ImageObj)
  | externalMedia (ext : ExternalObj)
  | unknownMedia
deriving DecidableEq, Repr

/-- The embed union of an `app.bsky.feed.post` record body: the four
`isEmbed*` type guards of the source, plus an unknown fallthrough. -/
inductive PostEmbed where
  | images (imgs : List ImageObj)
  | externalEmbed (ext : ExternalObj)
  | record (record : RecordRef)
  | recordWithMedia (record : RecordRef) (media : EmbedMedia)
  | unknownEmbed
deriving DecidableEq, Repr

/-- An `app.bsky.feed.post` record body (only the fields the embedded code
reads). -/
structure PostRecord where
  text : String
  embed : Option PostEmbed
deriving DecidableEq, Repr

/-- A label row as returned by the label service. -/
structure LabelRow where
  src : String
  uri : String
  val : String
deriving DecidableEq, Repr

/-- Viewer-relative relationship state on an actor view
(`ActorInfoMap` entry `viewer` field). -/
structure ViewerState where
  muted : Bool
  mutedByList : Option String
  blockedBy : Bool
  blocking : Option String
  following : Option String
  followedBy : Option String
deriving DecidableEq, Repr

/-- An `ActorInfoMap` entry as built by `getActorInfos`. -/
structure ActorInfo where
  did : String
  handle : String
  displayName : Option (List Nat)
  avatar : Option String
  viewer : ViewerState
  labels : Option (List LabelRow)
deriving DecidableEq, Repr

/-- A `PostInfoMap` entry: the row shape selected by `getPostInfos`. -/
structure PostInfo where
  uri : AtUri
  cid : String
  creator : String
  indexedAt : String
  recordBytes : PostRecord
  likeCount : Option Nat
  repostCount : Option Nat
  replyCount : Option Nat
  requesterRepost : Option String
  requesterLike : Option String
deriving DecidableEq, Repr

/-- A `FeedGenInfoMap` entry: the row shape selected by
`selectFeedGeneratorQb`. -/
structure FeedGenInfo where
  uri : AtUri
  creator : String
  displayName : String
  likeCount : Nat
  viewerLike : Option String
deriving DecidableEq, Repr

/-- Opaque payload of a formatted `app.bsky.feed.defs#generatorView`
(produced by the `FeedViews.formatFeedGeneratorView` collaborator). -/
structure GeneratorViewPayload where
  payload : String
deriving DecidableEq, Repr

/-- Opaque payload of a formatted `app.bsky.graph.defs#listView`
(produced by `GraphService.formatListView`). -/
structure ListViewPayload where
  payload : String
deriving DecidableEq, Repr

/-- A list row as returned by `GraphService.getListViews`. -/
structure ListViewExt where
  uri : AtUri
  payload : String
deriving DecidableEq, Repr

mutual
/-- A resolved post embed view (`PostEmbedViews` entry).  The `recordView`
payload is `Option` because the source assigns
`recordEmbedViews[post.embed.record.uri]`, which may be `undefined`. -/
inductive PostEmbedView where
  | imagesView (v : List (String × String × String))
  | externalView (uri title description : String) (thumb : Option String)
  | recordView (record : Option RecordEmbedView)
  | recordWithMediaView (record : Option RecordEmbedView) (media : MediaView)

/-- The `record` union stored by `nestedRecordViews`
(`View` of `app.bsky.embed.record`). -/
inductive RecordEmbedView where
  | generatorView (v : GeneratorViewPayload)
  | listViewEmbed (v : ListViewPayload)
  | recordVariant (v : RecordVariant)

/-- The tagged variant returned by `getRecordEmbedView`:
`ViewRecord | ViewNotFound | ViewBlocked`. -/
inductive RecordVariant where
  | viewRecord (uri : AtUri) (cid : String) (author : ActorInfo)
      (value : PostRecord) (labels : Option (List LabelRow))
      (indexedAt : String) (embeds : Option (List PostEmbedView))
  | viewNotFound (uri : AtUri)
  | viewBlocked (uri : AtUri)

/-- Media half of a `recordWithMedia` view (images or external only). -/
inductive MediaView where
  | imagesMedia (v : List (String × String × String))
  | externalMedia (uri title description : String) (thumb : Option String)
end

/-- A formatted post view (`FeedViews.formatPostView` output); only the
fields read by `getRecordEmbedView` are modelled. -/
structure PostView where
  uri : AtUri
  cid : String
  author : ActorInfo
  record : PostRecord
  labels : Option (List LabelRow)
  indexedAt : String

/-- One outbound database / collaborator call issued by a batch loader
(the argument is the identifier set handed to the call). -/
inductive DbCall where
  | actorQuery (dids : List String)
  | labelsForSubjects (subjects : List String)
  | listMutes (dids : List String)
  | postQuery (uris : List AtUri)
  | feedGenQuery (uris : List AtUri)
  | listViewsQuery (uris : List AtUri)
deriving DecidableEq, Repr

/-- A `did_handle` table row. -/
structure DidHandleRow where
  did : String
  handle : String
deriving DecidableEq, Repr

/-- A `repo_root` table row (`takedownId` drives `notSoftDeletedClause`). -/
structure RepoRootRow where
  did : String
  takedownId : Option String
deriving DecidableEq, Repr

/-- A `record` table row (`takedownId` drives `notSoftDeletedClause`). -/
structure RecordRow where
  uri : AtUri
  takedownId : Option String
deriving DecidableEq, Repr

/-- A `profile` table row. -/
structure ProfileRow where
  creator : String
  displayName : Option (List Nat)
  avatarCid : Option String
deriving DecidableEq, Repr

/-- A `post` table row. -/
structure PostRow where
  uri : AtUri
  cid : String
  creator : String
  replyParent : Option AtUri
  replyRoot : Option AtUri
  indexedAt : String
deriving DecidableEq, Repr

/-- An `ipld_block` table row holding a post record body. -/
structure IpldBlockRow where
  cid : String
  creator : String
  content : PostRecord
deriving DecidableEq, Repr

/-- A `post_agg` table row. -/
structure PostAggRow where
  uri : AtUri
  likeCount : Nat
  repostCount : Nat
  replyCount : Nat
deriving DecidableEq, Repr

/-- A `follow` table row. -/
structure FollowRow where
  uri : String
  creator : String
  subjectDid : String
deriving DecidableEq, Repr

/-- An `actor_block` table row. -/
structure ActorBlockRow where
  uri : String
  creator : String
  subjectDid : String
deriving DecidableEq, Repr

/-- A `mute` table row. -/
structure MuteRow where
  did : String
  mutedByDid : String
deriving DecidableEq, Repr

/-- A `like` table row. -/
structure LikeRow where
  uri : String
  creator : String
  subject : AtUri
deriving DecidableEq, Repr

/-- A `repost` table row. -/
structure RepostRow where
  uri : String
  creator : String
  subject : AtUri
deriving DecidableEq, Repr

/-- A `feed_generator` table row. -/
structure FeedGeneratorRow where
  uri : AtUri
  creator : String
  displayName : String
deriving DecidableEq, Repr

/-- The data layer plus collaborator services of `FeedService`.  Tables are
lists of rows; services whose code is outside the sampled sources (label
service, graph service, image uri signer, `FeedViews` formatters) are
uninterpreted functions. -/
structure Db where
  did_handle : List DidHandleRow
  repo_root : List RepoRootRow
  record : List RecordRow
  profile : List ProfileRow
  post : List PostRow
  ipld_block : List IpldBlockRow
  post_agg : List PostAggRow
  follow : List FollowRow
  actor_block : List ActorBlockRow
  mute : List MuteRow
  likeTable : List LikeRow
  repost : List RepostRow
  feed_generator : List FeedGeneratorRow
  labelsFor : List String → String → List LabelRow
  listMutesFor : List String → String → String → Option String
  listViewsFor : List AtUri → String → AtUri → Option ListViewExt
  signedUri : String → String → String
  formatFeedGeneratorView :
    FeedGenInfo → (String → Option ActorInfo) → (String → List LabelRow) →
      GeneratorViewPayload
  formatListView : ListViewExt → (String → Option ActorInfo) → ListViewPayload
  formatPostView :
    AtUri → (String → Option ActorInfo) → (AtUri → Option PostInfo) →
      (AtUri → Option PostEmbedView) → (String → List LabelRow) →
      Option PostView

def findRepoRoot (db : Db) (did : String) : Option RepoRootRow :=
  db.repo_root.find? (fun r => decide (r.did = did))

def findRecordRow (db : Db) (uri : AtUri) : Option RecordRow :=
  db.record.find? (fun r => decide (r.uri = uri))

def findIpldBlock (db : Db) (cid creator : String) : Option IpldBlockRow :=
  db.ipld_block.find? (fun r => decide (r.cid = cid ∧ r.creator = creator))

def findPostAgg (db : Db) (uri : AtUri) : Option PostAggRow :=
  db.post_agg.find? (fun r => decide (r.uri = uri))

/-- The row shape produced by the `did_handle` select of `getActorInfos`
(profile left-join plus the five viewer-relative subqueries). -/
structure ActorQueryRow where
  did : String
  handle : String
  displayName : Option (List Nat)
  avatarCid : Option String
  requesterFollowing : Option String
  requesterFollowedBy : Option String
  requesterBlocking : Option String
  requesterBlockedBy : Option String
  requesterMuted : Option String
deriving DecidableEq, Repr

/-- The batched actor query of `getActorInfos`: `did_handle` rows with
`did in dids`, inner-joined with `repo_root` (soft-delete filtered unless
`includeSoftDeleted`), left-joined with `profile`, with the
follow/block/mute subqueries evaluated per row against the same data. -/
def actorQueryRows (db : Db) (dids : List String) (requester : String)
    (includeSoftDeleted : Bool) : List ActorQueryRow :=
  db.did_handle.filterMap (fun dh =>
    if dh.did ∈ dids then
      match findRepoRoot db dh.did with
      | none => none
      | some rr =>
        if includeSoftDeleted = true ∨ rr.takedownId = none then
          let prof := db.profile.find? (fun p => decide (p.creator = dh.did))
          some
            { did := dh.did
              handle := dh.handle
              displayName := prof.bind (fun p => p.displayName)
              avatarCid := prof.bind (fun p => p.avatarCid)
              requesterFollowing :=
                (db.follow.find? (fun f =>
                  decide (f.creator = requester ∧ f.subjectDid = dh.did))).map
                  (fun f => f.uri)
              requesterFollowedBy :=
                (db.follow.find? (fun f =>
                  decide (f.creator = dh.did ∧ f.subjectDid = requester))).map
                  (fun f => f.uri)
              requesterBlocking :=
                (db.actor_block.find? (fun b =>
                  decide (b.creator = requester ∧ b.subjectDid = dh.did))).map
                  (fun b => b.uri)
              requesterBlockedBy :=
                (db.actor_block.find? (fun b =>
                  decide (b.creator = dh.did ∧ b.subjectDid = requester))).map
                  (fun b => b.uri)
              requesterMuted :=
                (db.mute.find? (fun m =>
                  decide (m.did = dh.did ∧ m.mutedByDid = requester))).map
                  (fun m => m.did) }
        else none
    else none)

/-- Display name handling of `getActorInfos`:
`truncateUtf8(cur.displayName, 64) || undefined`. -/
def displayNameView (dn : Option (List Nat)) : Option (List Nat) :=
  match dn with
  | none => none
  | some s =>
    let t := truncateUtf8 s 64
    if t = [] then none else some t

/-- The `ActorInfoMap` entry built from one actor query row. -/
def actorInfoFromRow (db : Db) (skipLabels : Bool)
    (labels : String → List LabelRow) (listMutes : String → Option String)
    (cur : ActorQueryRow) : ActorInfo :=
  { did := cur.did
    handle := cur.handle
    displayName := displayNameView cur.displayName
    avatar := cur.avatarCid.map (fun cid => db.signedUri "avatar" cid)
    viewer :=
      { muted := cur.requesterMuted.isSome || (listMutes cur.did).isSome
        mutedByList := listMutes cur.did
        blockedBy := cur.requesterBlockedBy.isSome
        blocking := cur.requesterBlocking
        following := cur.requesterFollowing
        followedBy := cur.requesterFollowedBy }
    labels := if skipLabels then none else some (labels cur.did) }

/-- Embeds `FeedService.getActorInfos`: early-returns an empty map on an
empty did set; otherwise issues the actor query, the label fetch
(`skipLabels` sends an empty subject set) and the list-mute fetch, and
folds the rows into a map keyed by did.  The second component is the
trace of issued calls. -/
def getActorInfos (db : Db) (dids : List String) (requester : String)
    (skipLabels includeSoftDeleted : Bool) :
    (String → Option ActorInfo) × List DbCall :=
  if dids.length < 1 then (objEmpty, [])
  else
    let actors := actorQueryRows db dids requester includeSoftDeleted
    let labelSubjects := if skipLabels then [] else dids
    let labels := db.labelsFor labelSubjects
    let listMutes := fun did => db.listMutesFor dids requester did
    (actors.foldl (fun acc cur =>
        objSet acc cur.did (actorInfoFromRow db skipLabels labels listMutes cur))
      objEmpty,
      [DbCall.actorQuery dids, DbCall.labelsForSubjects labelSubjects,
        DbCall.listMutes dids])

/-- The batched post query of `getPostInfos`: `post` rows with
`uri in postUris`, inner-joined with `ipld_block`, `repo_root` and
`record` (both soft-delete filtered), left-joined with `post_agg`, with
the viewer's own repost/like subqueries. -/
def postInfoRows (db : Db) (postUris : List AtUri) (requester : String) :
    List PostInfo :=
  db.post.filterMap (fun p =>
    if p.uri ∈ postUris then
      match findIpldBlock db p.cid p.creator, findRepoRoot db p.creator,
          findRecordRow db p.uri with
      | some blk, some rr, some rec =>
        if rr.takedownId = none ∧ rec.takedownId = none then
          some
            { uri := p.uri
              cid := p.cid
              creator := p.creator
              indexedAt := p.indexedAt
              recordBytes := blk.content
              likeCount := (findPostAgg db p.uri).map (fun a => a.likeCount)
              repostCount := (findPostAgg db p.uri).map (fun a => a.repostCount)
              replyCount := (findPostAgg db p.uri).map (fun a => a.replyCount)
              requesterRepost :=
                (db.repost.find? (fun r =>
                  decide (r.creator = requester ∧ r.subject = p.uri))).map
                  (fun r => r.uri)
              requesterLike :=
                (db.likeTable.find? (fun l =>
                  decide (l.creator = requester ∧ l.subject = p.uri))).map
                  (fun l => l.uri) }
        else none
      | _, _, _ => none
    else none)

/-- Embeds `FeedService.getPostInfos`. -/
def getPostInfos (db : Db) (postUris : List AtUri) (requester : String) :
    (AtUri → Option PostInfo) × List DbCall :=
  if postUris.length < 1 then (objEmpty, [])
  else
    ((postInfoRows db postUris requester).foldl
        (fun acc cur => objSet acc cur.uri cur) objEmpty,
      [DbCall.postQuery postUris])

/-- The batched feed-generator query of `selectFeedGeneratorQb` restricted
to `uri in generatorUris`: inner joins on `did_handle`, `repo_root`
(creator) and `record`, soft-delete filtered, with like count and viewer
like subqueries. -/
def feedGenInfoRows (db : Db) (generatorUris : List AtUri)
    (requester : String) : List FeedGenInfo :=
  db.feed_generator.filterMap (fun fg =>
    if fg.uri ∈ generatorUris then
      match db.did_handle.find? (fun dh => decide (dh.did = fg.creator)),
          findRepoRoot db fg.creator, findRecordRow db fg.uri with
      | some _, some rr, some rec =>
        if rr.takedownId = none ∧ rec.takedownId = none then
          some
            { uri := fg.uri
              creator := fg.creator
              displayName := fg.displayName
              likeCount :=
                (db.likeTable.filter (fun l => decide (l.subject = fg.uri))).length
              viewerLike :=
                (db.likeTable.find? (fun l =>
                  decide (l.creator = requester ∧ l.subject = fg.uri))).map
                  (fun l => l.uri) }
        else none
      | _, _, _ => none
    else none)

/-- Embeds `FeedService.getFeedGeneratorInfos`. -/
def getFeedGeneratorInfos (db : Db) (generatorUris : List AtUri)
    (requester : String) : (AtUri → Option FeedGenInfo) × List DbCall :=
  if generatorUris.length < 1 then (objEmpty, [])
  else
    ((feedGenInfoRows db generatorUris requester).foldl
        (fun acc cur => objSet acc cur.uri cur) objEmpty,
      [DbCall.feedGenQuery generatorUris])

/-- Embeds `FeedService.nestedRecordUris`: collect the record half of every
record / record-with-media embed, in batch order, without deduplication. -/
def nestedRecordUris (posts : List PostRecord) : List AtUri :=
  posts.foldr (fun post acc =>
    match post.embed with
    | some (PostEmbed.record r) => r.uri :: acc
    | some (PostEmbed.recordWithMedia r _) => r.uri :: acc
    | _ => acc) []

/-- The post partition built by the classification loop of
`nestedRecordViews` (pushed per occurrence, not deduplicated). -/
def nestedPostUris (uris : List AtUri) : List AtUri :=
  uris.filter (fun u => decide (u.collection = appBskyFeedPost))

/-- The feed-generator partition of the classification loop. -/
def nestedFeedGenUris (uris : List AtUri) : List AtUri :=
  uris.filter (fun u => decide (u.collection = appBskyFeedGenerator))

/-- The list partition of the classification loop. -/
def nestedListUris (uris : List AtUri) : List AtUri :=
  uris.filter (fun u => decide (u.collection = appBskyGraphList))

/-- The `nestedDidsSet` of `nestedRecordViews`: every referenced authority,
collected through a JS `Set` (hence deduplicated, insertion order). -/
def nestedDids (uris : List AtUri) : List String :=
  uris.foldl (fun acc u => insertUnique acc u.hostname) []

/-- One step of the view-assembly loop of `nestedRecordViews`, mirroring its
`if`/`else if` chain.  In the hydrated-post branch the source computes
`views.formatPostView(...)` into a local `formatted` binding and — marked
`@TODo` — never assigns it into `recordEmbedViews`, so the accumulator is
returned unchanged there. -/
def nestedRecordViewStep (db : Db) (actorInfos : String → Option ActorInfo)
    (postInfos : AtUri → Option PostInfo)
    (labelViews : String → List LabelRow)
    (feedGenInfos : AtUri → Option FeedGenInfo)
    (listViews : AtUri → Option ListViewExt)
    (acc : AtUri → Option RecordEmbedView) (uri : AtUri) :
    AtUri → Option RecordEmbedView :=
  match (if uri.collection = appBskyFeedGenerator then feedGenInfos uri
    else none) with
  | some info =>
    objSet acc uri
      (RecordEmbedView.generatorView
        (db.formatFeedGeneratorView info actorInfos labelViews))
  | none =>
  match (if uri.collection = appBskyGraphList then listViews uri
    else none) with
  | some lv =>
    objSet acc uri
      (RecordEmbedView.listViewEmbed (db.formatListView lv actorInfos))
  | none =>
  match (if uri.collection = appBskyFeedPost then postInfos uri
    else none) with
  | some _ =>
    let _formatted :=
      db.formatPostView uri actorInfos postInfos objEmpty labelViews
    acc
  | none =>
    objSet acc uri
      (RecordEmbedView.recordVariant (RecordVariant.viewNotFound uri))

/-- Embeds `FeedService.nestedRecordViews`: partition the collected record
references by collection, batch-resolve each partition (and the actor,
label and list collaborators) once, then assemble one embed view per
reference. -/
def nestedRecordViews (db : Db) (posts : List PostRecord)
    (requester : String) :
    (AtUri → Option RecordEmbedView) × List DbCall :=
  let nestedUris := nestedRecordUris posts
  if nestedUris.length < 1 then (objEmpty, [])
  else
    let postUris := nestedPostUris nestedUris
    let feedGenUris := nestedFeedGenUris nestedUris
    let listUris := nestedListUris nestedUris
    let dids := nestedDids nestedUris
    let postRes := getPostInfos db postUris requester
    let actorRes := getActorInfos db dids requester true false
    let labelSubjects := postUris.map atUriToString ++ dids
    let labelViews := db.labelsFor labelSubjects
    let feedGenRes := getFeedGeneratorInfos db feedGenUris requester
    let listViews := fun u => db.listViewsFor listUris requester u
    (nestedUris.foldl
        (nestedRecordViewStep db actorRes.1 postRes.1 labelViews feedGenRes.1
          listViews)
        objEmpty,
      postRes.2 ++ actorRes.2 ++ [DbCall.labelsForSubjects labelSubjects] ++
        feedGenRes.2 ++ [DbCall.listViewsQuery listUris])

/-- Embeds `FeedService.postRecordsFromInfos`.  The source is a stub:
`return {} as any` — it produces an empty record map regardless of the
post infos handed to it. -/
def postRecordsFromInfos (_infos : AtUri → Option PostInfo) :
    List (AtUri × PostRecord) :=
  []

/-- Embeds `FeedService.imagesEmbedView` (thumb/fullsize signed uris per
image). -/
def imagesEmbedView (db : Db) (imgs : List ImageObj) :
    List (String × String × String) :=
  imgs.map (fun img =>
    (db.signedUri "feed_thumbnail" img.imageCid,
      db.signedUri "feed_fullsize" img.imageCid, img.alt))

/-- Embeds `FeedService.externalEmbedView`. -/
def externalEmbedViewOf (db : Db) (ext : ExternalObj) :
    String × String × String × Option String :=
  (ext.uri, ext.title, ext.description,
    ext.thumbCid.map (fun cid => db.signedUri "feed_thumbnail" cid))

/-- Embeds `FeedService.embedsForPosts`: build the post-record map (a stub
in the source), early-return on an empty batch, resolve nested record
views unless excluded, then build one embed view per post with an embed
field. -/
def embedsForPosts (db : Db) (postInfos : AtUri → Option PostInfo)
    (requester : String) (excludeNested : Bool) :
    (AtUri → Option PostEmbedView) × List DbCall :=
  let postMap := postRecordsFromInfos postInfos
  let posts := postMap.map (fun e => e.2)
  if posts.length < 1 then (objEmpty, [])
  else
    let nestedRes :=
      if excludeNested then (objEmpty, []) else nestedRecordViews db posts requester
    let recordEmbedViews := nestedRes.1
    (postMap.foldl (fun acc entry =>
        match entry.2.embed with
        | none => acc
        | some (PostEmbed.images imgs) =>
          objSet acc entry.1 (PostEmbedView.imagesView (imagesEmbedView db imgs))
        | some (PostEmbed.externalEmbed ext) =>
          objSet acc entry.1
            (PostEmbedView.externalView ext.uri ext.title ext.description
              (ext.thumbCid.map (fun cid => db.signedUri "feed_thumbnail" cid)))
        | some (PostEmbed.record r) =>
          objSet acc entry.1 (PostEmbedView.recordView (recordEmbedViews r.uri))
        | some (PostEmbed.recordWithMedia r media) =>
          match media with
          | EmbedMedia.images imgs =>
            objSet acc entry.1
              (PostEmbedView.recordWithMediaView (recordEmbedViews r.uri)
                (MediaView.imagesMedia (imagesEmbedView db imgs)))
          | EmbedMedia.externalMedia ext =>
            objSet acc entry.1
              (PostEmbedView.recordWithMediaView (recordEmbedViews r.uri)
                (MediaView.externalMedia ext.uri ext.title ext.description
                  (ext.thumbCid.map (fun cid => db.signedUri "feed_thumbnail" cid))))
          | EmbedMedia.unknownMedia => acc
        | some PostEmbed.unknownEmbed => acc)
      objEmpty,
      nestedRes.2)

/-- Embeds the module-level `getRecordEmbedView` of
`packages/pds/src/app-view/services/feed/index.ts`: a missing post yields
the not-found view; a post whose author is blocking or blocked by the
viewer yields the blocked view; otherwise the materialized record view. -/
def getRecordEmbedView (uri : AtUri) (post : Option PostView)
    (embeds : Option (List PostEmbedView)) : RecordVariant :=
  match post with
  | none => RecordVariant.viewNotFound uri
  | some p =>
    if p.author.viewer.blocking.isSome || p.author.viewer.blockedBy then
      RecordVariant.viewBlocked uri
    else
      RecordVariant.viewRecord p.uri p.cid p.author p.record p.labels
        p.indexedAt embeds

/-- Tag test: is a record variant the blocked terminal view. -/
def RecordVariant.isBlockedView : RecordVariant → Bool
  | RecordVariant.viewBlocked _ => true
  | _ => false

/-- Tag test: is a record variant the not-found terminal view. -/
def RecordVariant.isNotFoundView : RecordVariant → Bool
  | RecordVariant.viewNotFound _ => true
  | _ => false

/-- A `FeedRow` as consumed by `hydrateFeed` (post uri, author, originator
and reply pointers). -/
structure FeedRow where
  postUri : AtUri
  postAuthorDid : String
  originatorDid : String
  replyParent : Option AtUri
  replyRoot : Option AtUri
deriving DecidableEq, Repr

/-- The `actorDids` / `postUris` JS `Set`s accumulated by the loop at the
top of `hydrateFeed`. -/
def hydrateFeedIdSets (items : List FeedRow) : List String × List AtUri :=
  items.foldl (fun acc item =>
    let dids := insertUnique acc.1 item.postAuthorDid
    let uris := insertUnique acc.2 item.postUri
    let dids :=
      if item.postAuthorDid ≠ item.originatorDid then
        insertUnique dids item.originatorDid
      else dids
    let next :=
      match item.replyParent with
      | some rp => (insertUnique dids rp.hostname, insertUnique uris rp)
      | none => (dids, uris)
    match item.replyRoot with
    | some rr => (insertUnique next.1 rr.hostname, insertUnique next.2 rr)
    | none => next) ([], [])

/-- Embeds `FeedService.hydrateFeed` up to the final `views.formatFeed`
formatting collaborator: derive the actor/post id sets, run the three
batched fetches, then resolve embeds for the hydrated posts.  Returns the
hydrated state and the call trace. -/
def hydrateFeed (db : Db) (items : List FeedRow) (requester : String) :
    ((String → Option ActorInfo) × (AtUri → Option PostInfo) ×
      (AtUri → Option PostEmbedView)) × List DbCall :=
  let ids := hydrateFeedIdSets items
  let actorRes := getActorInfos db ids.1 requester true false
  let postRes := getPostInfos db ids.2 requester
  let labelSubjects := ids.2.map atUriToString ++ ids.1
  let embedRes := embedsForPosts db postRes.1 requester false
  ((actorRes.1, postRes.1, embedRes.1),
    actorRes.2 ++ postRes.2 ++ [DbCall.labelsForSubjects labelSubjects] ++
      embedRes.2)

/-- A skeleton item (`AlgoResponseItem`): post reference, optional repost
reference, opaque feed context. -/
structure AlgoResponseItem where
  postUri : String
  repostUri : Option String
  feedContext : Option String
deriving DecidableEq, Repr

/-- A `ServerTimer` snapshot (name and recorded duration). -/
structure ServerTimer where
  name : String
  duration : Option Nat
deriving DecidableEq, Repr

/-- Cross-stage state of the getFeed pipeline (`Skeleton` type of
`packages/bsky/src/api/app/bsky/feed/getFeed.ts`). -/
structure Skeleton where
  items : List AlgoResponseItem
  passthrough : List (String × String)
  resHeaders : List (String × String)
  cursor : Option String
  timerSkele : ServerTimer
  timerHydr : ServerTimer
deriving DecidableEq, Repr

/-- Result of `ctx.views.feedItemBlocksAndMutes(item, hydration)`. -/
structure BlocksAndMutes where
  authorBlocked : Bool
  authorMuted : Bool
  originatorBlocked : Bool
  originatorMuted : Bool
  ancestorAuthorBlocked : Bool
deriving DecidableEq, Repr

/-- Embeds the `noBlocksOrMutes` rules stage: replace `skeleton.items` by
the items whose blocks-and-mutes flags are all clear; everything else on
the skeleton state is untouched, and the stage performs no I/O (it is a
pure function of the already-hydrated state, queried through the
`feedItemBlocksAndMutes` view helper). -/
def noBlocksOrMutes {H : Type}
    (feedItemBlocksAndMutes : AlgoResponseItem → H → BlocksAndMutes)
    (hydration : H) (skeleton : Skeleton) : Skeleton :=
  { skeleton with
    items := skeleton.items.filter (fun item =>
      let bam := feedItemBlocksAndMutes item hydration
      !bam.authorBlocked && !bam.authorMuted && !bam.originatorBlocked &&
        !bam.originatorMuted && !bam.ancestorAuthorBlocked) }

/-- Rendering of `serverTimingHeader` (xrpc-server utility outside the
sampled sources; its value is irrelevant to the claims). -/
def serverTimingHeader (timers : List ServerTimer) : String :=
  String.intercalate ", " (timers.map (fun t =>
    t.name ++
      (match t.duration with
        | some d => ";dur=" ++ toString d
        | none => "")))

/-- Body of the getFeed response assembled by `presentation`
(`{feed, cursor: skeleton.cursor, ...skeleton.passthrough}`; the
destructuring in the skeleton stage removed `cursor` from `passthrough`,
so the spread cannot shadow the cursor field). -/
structure PresentedBody (P : Type) where
  feed : List (P × Option String)
  cursor : Option String
  passthrough : List (String × String)
deriving DecidableEq, Repr

/-- Full getFeed response: headers plus body. -/
structure Presented (P : Type) where
  headers : List (String × String)
  body : PresentedBody P
deriving DecidableEq, Repr

/-- Embeds the `presentation` stage: map surviving items through
`ctx.views.feedViewPost` keeping defined results with their feed context,
truncate to the requested limit, and attach the skeleton cursor and
passthrough fields plus timing headers. -/
def presentation {H P : Type}
    (feedViewPost : AlgoResponseItem → H → Option P) (limit : Nat)
    (skeleton : Skeleton) (hydration : H) : Presented P :=
  { headers :=
      skeleton.resHeaders ++
        [("server-timing",
          serverTimingHeader [skeleton.timerSkele, skeleton.timerHydr])]
    body :=
      { feed :=
          (skeleton.items.filterMap (fun item =>
            (feedViewPost item hydration).map (fun p => (p, item.feedContext)))).take
            limit
        cursor := skeleton.cursor
        passthrough := skeleton.passthrough } }

/-- Status of an `XRPCError` (`ResponseType`); the source tests `Unknown`
and `InvalidResponse`. -/
inductive XrpcStatus where
  | unknown
  | invalidResponse
  | otherStatus (code : Nat)
deriving DecidableEq, Repr

/-- An error raised by the upstream `getFeedSkeleton` call: the generated
`UnknownFeedError`, a transport-level `XRPCError`, or anything else. -/
inductive UpstreamError where
  | unknownFeedError (message : String)
  | xrpcError (status : XrpcStatus) (message : String)
  | otherError (message : String)
deriving DecidableEq, Repr

/-- An error surfaced by `skeletonFromFeedGen`: `InvalidRequestError` or
`UpstreamFailureError` (each with an optional custom error name), a
dataplane error propagated from identity resolution, or an upstream error
rethrown unchanged. -/
inductive HandlerError where
  | invalidRequest (message : String) (customErrorName : Option String)
  | upstreamFailure (message : String) (customErrorName : Option String)
  | dataplaneThrown (message : String)
  | rethrown (err : UpstreamError)
deriving DecidableEq, Repr

/-- JS `err instanceof AppBskyFeedGetFeedSkeleton.UnknownFeedError`. -/
def isUnknownFeedErrorB : UpstreamError → Bool
  | UpstreamError.unknownFeedError _ => true
  | _ => false

/-- JS `err instanceof XRPCError` followed by reading `err.status`. -/
def xrpcStatusOf : UpstreamError → Option XrpcStatus
  | UpstreamError.xrpcError s _ => some s
  | _ => none

/-- Message carried by an upstream error (`err.message`). -/
def upstreamErrMessage : UpstreamError → String
  | UpstreamError.unknownFeedError m => m
  | UpstreamError.xrpcError _ m => m
  | UpstreamError.otherError m => m

/-- Embeds the `catch` block of `skeletonFromFeedGen`, in source order:
`UnknownFeedError` becomes an `InvalidRequestError` with custom name
`UnknownFeed`; an `XRPCError` with status `Unknown` becomes
`UpstreamFailureError('feed unavailable')`; one with status
`InvalidResponse` becomes `UpstreamFailureError(..., 'InvalidFeedResponse')`;
everything else is rethrown unchanged. -/
def mapFeedGenError (err : UpstreamError) : HandlerError :=
  if isUnknownFeedErrorB err then
    HandlerError.invalidRequest (upstreamErrMessage err) (some "UnknownFeed")
  else
    match xrpcStatusOf err with
    | some XrpcStatus.unknown => HandlerError.upstreamFailure "feed unavailable" none
    | some XrpcStatus.invalidResponse =>
      HandlerError.upstreamFailure "feed provided an invalid response"
        (some "InvalidFeedResponse")
    | _ => HandlerError.rethrown err

/-- A header value of a Node `IncomingHttpHeaders` entry: a single string
or an array of strings. -/
inductive HeaderValue where
  | single (s : String)
  | multi (l : List String)
deriving DecidableEq, Repr

/-- The `x-bsky-topics` normalization:
`Array.isArray(v) ? v.join(',') : v`. -/
def joinTopics : Option HeaderValue → Option HeaderValue
  | some (HeaderValue.multi l) => some (HeaderValue.single (String.intercalate "," l))
  | v => v

/-- `noUndefinedVals` over the candidate header object: keep only defined
entries. -/
def noUndefinedVals (l : List (String × Option HeaderValue)) :
    List (String × HeaderValue) :=
  l.filterMap (fun p => p.2.map (fun v => (p.1, v)))

/-- The headers object built for the outbound `getFeedSkeleton` call: only
`authorization`, `accept-language` and `x-bsky-topics` are read from the
incoming request headers. -/
def feedGenRequestHeaders (headers : String → Option HeaderValue) :
    List (String × HeaderValue) :=
  noUndefinedVals
    [("authorization", headers "authorization"),
      ("accept-language", headers "accept-language"),
      ("x-bsky-topics", joinTopics (headers "x-bsky-topics"))]

/-- An entry of the upstream skeleton response feed. -/
structure SkeletonFeedPost where
  post : String
  reasonRepost : Option String
  feedContext : Option String
deriving DecidableEq, Repr

/-- The upstream `getFeedSkeleton` output: feed entries, optional cursor,
and any extra passthrough fields (JS object keys are unique, so `extra`
never contains `feed` or `cursor`). -/
structure SkeletonOutput where
  feed : List SkeletonFeedPost
  cursor : Option String
  extra : List (String × String)
deriving DecidableEq, Repr

/-- An error from the dataplane `getIdentityByDid` call. -/
inductive DataplaneError where
  | notFound
  | otherDataplane (message : String)
deriving DecidableEq, Repr

/-- An identity document, consumed only through the `serviceEndpoint`
oracle. -/
structure Identity where
  payload : String
deriving DecidableEq, Repr

/-- Collaborators of `skeletonFromFeedGen`: feed-generator record lookup,
dataplane identity resolution, service-endpoint extraction, and the
outbound skeleton fetch (endpoint, feed, limit, cursor, headers; on
success also the upstream `content-language` response header). -/
structure FeedGenEnv where
  feedGenDid : String → Option String
  identity : String → Except DataplaneError Identity
  serviceEndpoint : Identity → Option String
  fetchSkeleton :
    String → String → Nat → Option String → List (String × HeaderValue) →
      Except UpstreamError (SkeletonOutput × Option String)

/-- The skeleton-stage result (`AlgoResponse` plus the passthrough fields
split off by the `skeleton` stage destructuring). -/
structure AlgoResponse where
  feedItems : List AlgoResponseItem
  resHeaders : List (String × String)
  cursor : Option String
  passthrough : List (String × String)
deriving DecidableEq, Repr

/-- Embeds `skeletonFromFeedGen`: resolve the feed record to its declared
did, resolve the did's identity and feed-generator endpoint, issue the
outbound call with the allow-listed headers, map upstream errors through
`mapFeedGenError`, and on success map skeleton entries to feed items
preserving order and per-item context. -/
def skeletonFromFeedGen (env : FeedGenEnv) (feed : String) (limit : Nat)
    (cursor : Option String) (headers : String → Option HeaderValue) :
    Except HandlerError AlgoResponse :=
  match env.feedGenDid feed with
  | none => Except.error (HandlerError.invalidRequest "could not find feed" none)
  | some feedDid =>
    match env.identity feedDid with
    | Except.error DataplaneError.notFound =>
      Except.error
        (HandlerError.invalidRequest ("could not resolve identity: " ++ feedDid)
          none)
    | Except.error (DataplaneError.otherDataplane m) =>
      Except.error (HandlerError.dataplaneThrown m)
    | Except.ok ident =>
      match env.serviceEndpoint ident with
      | none =>
        Except.error
          (HandlerError.invalidRequest
            ("invalid feed generator service details in did document: " ++
              feedDid) none)
      | some fgEndpoint =>
        match env.fetchSkeleton fgEndpoint feed limit cursor
            (feedGenRequestHeaders headers) with
        | Except.error err => Except.error (mapFeedGenError err)
        | Except.ok (out, contentLanguage) =>
          Except.ok
            { feedItems :=
                out.feed.map (fun item =>
                  { postUri := item.post
                    repostUri := item.reasonRepost
                    feedContext := item.feedContext })
              resHeaders :=
                match contentLanguage with
                | some l => [("content-language", l)]
                | none => []
              cursor := out.cursor
              passthrough := out.extra }

/-- Concrete viewer did used in witnesses. -/
def viewerDid : String := "did:example:viewer"

/-- Concrete author did used in witnesses. -/
def aliceDid : String := "did:example:alice"

/-- Concrete post uri embedded as a record reference in witnesses. -/
def uriInner : AtUri :=
  { hostname := aliceDid, collection := appBskyFeedPost, rkey := "inner" }

/-- A post record whose embed is a record reference to `uriInner`. -/
def outerPostRec : PostRecord :=
  { text := "outer", embed := some (PostEmbed.record { uri := uriInner, cid := "cid-inner" }) }

/-- A second post record embedding the same `uriInner` (for the
duplicate-identifier counterexample). -/
def outerPostRec2 : PostRecord :=
  { text := "outer2", embed := some (PostEmbed.record { uri := uriInner, cid := "cid-inner" }) }

/-- A database with empty tables and trivial collaborators: the state in
which every referenced record has been deleted. -/
def db0 : Db :=
  { did_handle := []
    repo_root := []
    record := []
    profile := []
    post := []
    ipld_block := []
    post_agg := []
    follow := []
    actor_block := []
    mute := []
    likeTable := []
    repost := []
    feed_generator := []
    labelsFor := fun _ _ => []
    listMutesFor := fun _ _ _ => none
    listViewsFor := fun _ _ _ => none
    signedUri := fun variant cid => variant ++ "/" ++ cid
    formatFeedGeneratorView := fun info _ _ => { payload := info.displayName }
    formatListView := fun lv _ => { payload := lv.payload }
    formatPostView := fun _ _ _ _ _ => none }

/-- A database in which `uriInner` hydrates: its post, record, repo-root
and ipld-block rows are present and none is taken down. -/
def db1 : Db :=
  { db0 with
    did_handle := [{ did := aliceDid, handle := "alice.test" }]
    repo_root := [{ did := aliceDid, takedownId := none }]
    record := [{ uri := uriInner, takedownId := none }]
    post :=
      [{ uri := uriInner, cid := "cid-inner", creator := aliceDid,
          replyParent := none, replyRoot := none, indexedAt := "2023-01-01" }]
    ipld_block :=
      [{ cid := "cid-inner", creator := aliceDid,
          content := { text := "inner", embed := none } }] }

/-- Skeleton items for the mute-filtering scenario. -/
def itemA : AlgoResponseItem :=
  { postUri := "at://did:example:a/app.bsky.feed.post/a", repostUri := none,
    feedContext := some "ctxA" }

/-- The repost item whose relevant actor is muted in the scenario. -/
def itemB : AlgoResponseItem :=
  { postUri := "at://did:example:c/app.bsky.feed.post/c",
    repostUri := some "at://did:example:b/app.bsky.feed.repost/b",
    feedContext := none }

/-- Third skeleton item of the scenario. -/
def itemD : AlgoResponseItem :=
  { postUri := "at://did:example:d/app.bsky.feed.post/d", repostUri := none,
    feedContext := none }

/-- Blocks-and-mutes state with all flags clear. -/
def bamClear : BlocksAndMutes :=
  { authorBlocked := false, authorMuted := false, originatorBlocked := false,
    originatorMuted := false, ancestorAuthorBlocked := false }

/-- Hydrated blocks-and-mutes view of the scenario: `itemB`'s author is
muted by the viewer; everything else is clear. -/
def scenarioBam (item : AlgoResponseItem) (_h : Unit) : BlocksAndMutes :=
  if item = itemB then { bamClear with authorMuted := true } else bamClear

/-- Skeleton state of the scenario: three ranked items and a cursor. -/
def scenarioSkeleton : Skeleton :=
  { items := [itemA, itemB, itemD]
    passthrough := [("$type", "app.bsky.feed.getFeed#extra")]
    resHeaders := [("content-language", "en")]
    cursor := some "cursor-123"
    timerSkele := { name := "skele", duration := some 12 }
    timerHydr := { name := "hydr", duration := some 34 } }

/-- A concrete upstream environment for the skeleton-stage witnesses: one
known feed, resolvable identity and endpoint, and an upstream call that
fails with the generated unknown-feed error. -/
def envUnknownFeed : FeedGenEnv :=
  { feedGenDid := fun feed =>
      if feed = "at://did:example:gen/app.bsky.feed.generator/g" then
        some "did:example:gen"
      else none
    identity := fun _ => Except.ok { payload := "identity" }
    serviceEndpoint := fun _ => some "https://fg.example.com"
    fetchSkeleton := fun _ _ _ _ _ =>
      Except.error (UpstreamError.unknownFeedError "feed not found") }

/-- Incoming headers carrying an allow-listed header and a cookie. -/
def headersWithCookie : String → Option HeaderValue := fun k =>
  if k = "authorization" then some (HeaderValue.single "Bearer tok")
  else if k = "cookie" then some (HeaderValue.single "session=1") else none

/-- The same headers with the cookie replaced by a tracing header: they
agree on the allow-list and differ outside it. -/
def headersWithTracing : String → Option HeaderValue := fun k =>
  if k = "authorization" then some (HeaderValue.single "Bearer tok")
  else if k = "x-trace-id" then some (HeaderValue.single "abc") else none

theorem objSet_lookup_ne {κ α : Type} [DecidableEq κ] (m : κ → Option α)
    (k x : κ) (v : α) (h : x ≠ k) : objSet m k v x = m x := by
  simp [objSet, h]

theorem objSet_lookup_self {κ α : Type} [DecidableEq κ] (m : κ → Option α)
    (k : κ) (v : α) : objSet m k v k = some v := by
  simp [objSet]

theorem foldl_objSet_lookup_mem {κ α β : Type} [DecidableEq κ]
    (key : β → κ) (val : β → α) :
    ∀ (rows : List β) (init : κ → Option α) (k : κ),
      ((rows.foldl (fun acc cur => objSet acc (key cur) (val cur)) init) k).isSome →
      (init k).isSome ∨ ∃ r ∈ rows, key r = k := by
  intro rows
  induction rows with
  | nil => intro init k h; exact Or.inl h
  | cons r rs ih =>
    intro init k h
    rw [List.foldl_cons] at h
    rcases ih _ k h with h' | ⟨r', hr', hk⟩
    · by_cases hk : k = key r
      · exact Or.inr ⟨r, List.mem_cons_self r rs, hk.symm⟩
      · left
        rw [objSet_lookup_ne _ _ _ _ hk] at h'
        exact h'
    · exact Or.inr ⟨r', List.mem_cons_of_mem _ hr', hk⟩

theorem foldl_lookup_frozen {κ α : Type} [DecidableEq κ]
    (step : (κ → Option α) → κ → (κ → Option α)) (u : κ)
    (hother : ∀ acc x, x ≠ u → (step acc x) u = acc u) :
    ∀ (l : List κ) (acc : κ → Option α), u ∉ l → (l.foldl step acc) u = acc u := by
  intro l
  induction l with
  | nil => intro acc _; rfl
  | cons x xs ih =>
    intro acc hu
    rw [List.foldl_cons, ih _ (fun h => hu (List.mem_cons_of_mem _ h)),
      hother acc x (fun h => hu (h ▸ List.mem_cons_self x xs))]

theorem foldl_lookup_const {κ α : Type} [DecidableEq κ]
    (step : (κ → Option α) → κ → (κ → Option α)) (u : κ) (v : α)
    (hu : ∀ acc, (step acc u) u = some v)
    (hother : ∀ acc x, x ≠ u → (step acc x) u = acc u) :
    ∀ (l : List κ) (acc : κ → Option α), u ∈ l → (l.foldl step acc) u = some v := by
  intro l
  induction l with
  | nil => intro acc h; cases h
  | cons x xs ih =>
    intro acc hmem
    by_cases hx : u ∈ xs
    · exact ih _ hx
    · have hxu : x = u := by
        rcases List.mem_cons.mp hmem with h | h
        · exact h.symm
        · exact absurd h hx
      rw [List.foldl_cons, foldl_lookup_frozen step u hother xs _ hx, hxu]
      exact hu acc

/-- C3.  For every feed request that completes the rules and presentation
stages, the cursor of the final response body is exactly the skeleton-stage
cursor: `noBlocksOrMutes` only replaces `skeleton.items`, and
`presentation` copies `skeleton.cursor` into the body unchanged (the
passthrough spread cannot shadow it, since the skeleton stage destructured
`cursor` out of the passthrough fields). -/
theorem getFeed_cursor_passthrough {H P : Type}
    (feedItemBlocksAndMutes : AlgoResponseItem → H → BlocksAndMutes)
    (feedViewPost : AlgoResponseItem → H → Option P) (limit : Nat)
    (skel : Skeleton) (hydrRules hydrPres : H) :
    (presentation feedViewPost limit
        (noBlocksOrMutes feedItemBlocksAndMutes hydrRules skel)
        hydrPres).body.cursor = skel.cursor ∧
      (noBlocksOrMutes feedItemBlocksAndMutes hydrRules skel).cursor =
        skel.cursor ∧
      (presentation feedViewPost limit skel hydrPres).body.cursor =
        skel.cursor :=
  ⟨rfl, rfl, rfl⟩

/-- C5.  The `noBlocksOrMutes` rules stage is a pure filter: the cursor and
passthrough state are untouched, the surviving items form a sublist of the
skeleton items (original rank order), and an item survives iff none of the
five block/mute flags of its hydrated blocks-and-mutes view is set.  The
second conjunct is the spec scenario: skeleton `[postA, postB(repost, its
author muted), postD]` filters to `[postA, postD]` with the cursor
unchanged. -/
theorem noBlocksOrMutes_filters_blocks_and_mutes :
    (∀ {H : Type} (f : AlgoResponseItem → H → BlocksAndMutes) (h : H)
        (s : Skeleton),
      (noBlocksOrMutes f h s).cursor = s.cursor ∧
        (noBlocksOrMutes f h s).passthrough = s.passthrough ∧
        (noBlocksOrMutes f h s).items.Sublist s.items ∧
        ∀ item ∈ s.items,
          (item ∈ (noBlocksOrMutes f h s).items ↔
            ¬((f item h).authorBlocked = true ∨ (f item h).authorMuted = true ∨
              (f item h).originatorBlocked = true ∨
              (f item h).originatorMuted = true ∨
              (f item h).ancestorAuthorBlocked = true))) ∧
      noBlocksOrMutes scenarioBam () scenarioSkeleton =
        { scenarioSkeleton with items := [itemA, itemD] } := by
  constructor
  · intro H f h s
    refine ⟨rfl, rfl, List.filter_sublist _, ?_⟩
    intro item hmem
    simp only [noBlocksOrMutes, List.mem_filter, hmem, true_and,
      Bool.and_eq_true, Bool.not_eq_true']
    constructor
    · rintro ⟨⟨⟨⟨h1, h2⟩, h3⟩, h4⟩, h5⟩
      rintro (hc | hc | hc | hc | hc) <;> simp_all
    · intro hnone
      push_neg at hnone
      simp_all
  · decide

/-- Witness for C5: instantiates the filter characterization at the
concrete scenario skeleton and `itemA`. -/
theorem noBlocksOrMutes_filters_blocks_and_mutes_witness :
    itemA ∈ scenarioSkeleton.items ∧
      (itemA ∈ (noBlocksOrMutes scenarioBam () scenarioSkeleton).items ↔
        ¬((scenarioBam itemA ()).authorBlocked = true ∨
          (scenarioBam itemA ()).authorMuted = true ∨
          (scenarioBam itemA ()).originatorBlocked = true ∨
          (scenarioBam itemA ()).originatorMuted = true ∨
          (scenarioBam itemA ()).ancestorAuthorBlocked = true)) :=
  ⟨by decide,
    (noBlocksOrMutes_filters_blocks_and_mutes.1 scenarioBam () scenarioSkeleton).2.2.2
      itemA (by decide)⟩

/-- C4.  `skeletonFromFeedGen` maps an upstream failure of the outbound
skeleton call through `mapFeedGenError`, whose taxonomy is: the generated
unknown-feed error becomes a client `InvalidRequestError` with code
`UnknownFeed`; an `XRPCError` of status `Unknown` becomes the server error
`feed unavailable` (no custom code); an `XRPCError` of status
`InvalidResponse` becomes the server error with code `InvalidFeedResponse`;
any other upstream error is rethrown unchanged. -/
theorem skeletonFromFeedGen_error_taxonomy :
    (∀ (env : FeedGenEnv) (feed : String) (limit : Nat)
        (cursor : Option String) (headers : String → Option HeaderValue)
        (feedDid : String) (ident : Identity) (endpoint : String)
        (err : UpstreamError),
      env.feedGenDid feed = some feedDid →
      env.identity feedDid = Except.ok ident →
      env.serviceEndpoint ident = some endpoint →
      env.fetchSkeleton endpoint feed limit cursor
          (feedGenRequestHeaders headers) = Except.error err →
      skeletonFromFeedGen env feed limit cursor headers =
        Except.error (mapFeedGenError err)) ∧
      (∀ m, mapFeedGenError (UpstreamError.unknownFeedError m) =
        HandlerError.invalidRequest m (some "UnknownFeed")) ∧
      (∀ m, mapFeedGenError (UpstreamError.xrpcError XrpcStatus.unknown m) =
        HandlerError.upstreamFailure "feed unavailable" none) ∧
      (∀ m,
        mapFeedGenError (UpstreamError.xrpcError XrpcStatus.invalidResponse m) =
          HandlerError.upstreamFailure "feed provided an invalid response"
            (some "InvalidFeedResponse")) ∧
      (∀ n m, mapFeedGenError (UpstreamError.xrpcError (XrpcStatus.otherStatus n) m) =
        HandlerError.rethrown (UpstreamError.xrpcError (XrpcStatus.otherStatus n) m)) ∧
      (∀ m, mapFeedGenError (UpstreamError.otherError m) =
        HandlerError.rethrown (UpstreamError.otherError m)) := by
  refine ⟨?_, fun m => rfl, fun m => rfl, fun m => rfl, fun n m => rfl,
    fun m => rfl⟩
  intro env feed limit cursor headers feedDid ident endpoint err h1 h2 h3 h4
  simp only [skeletonFromFeedGen, h1, h2, h3, h4]

/-- Witness for C4: the concrete environment whose upstream call raises the
unknown-feed error produces the `UnknownFeed` client error. -/
theorem skeletonFromFeedGen_error_taxonomy_witness :
    envUnknownFeed.feedGenDid "at://did:example:gen/app.bsky.feed.generator/g" =
        some "did:example:gen" ∧
      skeletonFromFeedGen envUnknownFeed
          "at://did:example:gen/app.bsky.feed.generator/g" 30 none
          headersWithCookie =
        Except.error
          (HandlerError.invalidRequest "feed not found" (some "UnknownFeed")) := by
  constructor
  · rfl
  · have h :=
      skeletonFromFeedGen_error_taxonomy.1 envUnknownFeed
        "at://did:example:gen/app.bsky.feed.generator/g" 30 none
        headersWithCookie "did:example:gen" { payload := "identity" }
        "https://fg.example.com" (UpstreamError.unknownFeedError "feed not found")
        rfl rfl rfl rfl
    exact h.trans (by rfl)

/-- C8.  The outbound skeleton call forwards only the allow-listed headers:
every key of the outbound header object is one of `authorization`,
`accept-language`, `x-bsky-topics`; and two incoming requests agreeing on
those three headers produce identical outbound header objects and identical
`skeletonFromFeedGen` outcomes, whatever their other headers. -/
theorem feedGen_header_allowlist :
    (∀ (h : String → Option HeaderValue) (k : String) (v : HeaderValue),
      (k, v) ∈ feedGenRequestHeaders h →
      k ∈ ["authorization", "accept-language", "x-bsky-topics"]) ∧
      ∀ (h1 h2 : String → Option HeaderValue),
        h1 "authorization" = h2 "authorization" →
        h1 "accept-language" = h2 "accept-language" →
        h1 "x-bsky-topics" = h2 "x-bsky-topics" →
        feedGenRequestHeaders h1 = feedGenRequestHeaders h2 ∧
          ∀ (env : FeedGenEnv) (feed : String) (limit : Nat)
            (cursor : Option String),
            skeletonFromFeedGen env feed limit cursor h1 =
              skeletonFromFeedGen env feed limit cursor h2 := by
  constructor
  · intro h k v hmem
    simp only [feedGenRequestHeaders, noUndefinedVals, List.filterMap_cons,
      List.filterMap_nil] at hmem
    rcases hk : h "authorization" with _ | va <;> rw [hk] at hmem <;>
      rcases hl : h "accept-language" with _ | vl <;> rw [hl] at hmem <;>
      rcases ht : joinTopics (h "x-bsky-topics") with _ | vt <;>
      rw [ht] at hmem <;> simp_all <;> tauto
  · intro h1 h2 ha hl ht
    have hreq : feedGenRequestHeaders h1 = feedGenRequestHeaders h2 := by
      simp only [feedGenRequestHeaders, ha, hl, ht]
    exact ⟨hreq, fun env feed limit cursor => by
      simp only [skeletonFromFeedGen, hreq]⟩

/-- Witness for C8: the concrete header maps differing only in a cookie
versus a tracing header agree on the allow-list and yield the same outbound
header object. -/
theorem feedGen_header_allowlist_witness :
    headersWithCookie "authorization" = headersWithTracing "authorization" ∧
      feedGenRequestHeaders headersWithCookie =
        feedGenRequestHeaders headersWithTracing :=
  ⟨rfl,
    (feedGen_header_allowlist.2 headersWithCookie headersWithTracing rfl rfl
        rfl).1⟩

/-- C9.  Each batch loader early-returns an empty map and an empty call
trace on an empty identifier set, and `nestedRecordViews` does the same
when the batch contains no nested record references. -/
theorem empty_id_sets_no_io :
    (∀ (db : Db) (requester : String) (skipLabels includeSoftDeleted : Bool),
      getActorInfos db [] requester skipLabels includeSoftDeleted =
          (objEmpty, []) ∧
        getPostInfos db [] requester = (objEmpty, []) ∧
        getFeedGeneratorInfos db [] requester = (objEmpty, [])) ∧
      ∀ (db : Db) (posts : List PostRecord) (requester : String),
        nestedRecordUris posts = [] →
        nestedRecordViews db posts requester = (objEmpty, []) := by
  refine ⟨fun db requester skipLabels includeSoftDeleted => ⟨rfl, rfl, rfl⟩,
    fun db posts requester h => ?_⟩
  simp only [nestedRecordViews, h]
  rfl

/-- Witness for C9: a batch with one embed-free post has no nested
references, so `nestedRecordViews` returns the empty map with no calls. -/
theorem empty_id_sets_no_io_witness :
    nestedRecordUris [{ text := "plain", embed := none }] = [] ∧
      nestedRecordViews db0 [{ text := "plain", embed := none }] viewerDid =
        (objEmpty, []) :=
  ⟨rfl, empty_id_sets_no_io.2 db0 [{ text := "plain", embed := none }]
    viewerDid rfl⟩

/-- C1 (code evidence).  With `uriInner` fully hydratable in `db1` (its
post, record, repo-root and ipld rows all present and not taken down), the
post-info loader run on the partition handed over by `nestedRecordViews`
returns an entry for it, yet the map returned by `nestedRecordViews` for a
batch embedding it has no entry at that uri: the hydrated-post branch of
the source computes the formatted view and never stores it. -/
theorem nestedRecordViews_hydrated_post_entry_missing :
    ((getPostInfos db1 (nestedPostUris (nestedRecordUris [outerPostRec]))
          viewerDid).1 uriInner).isSome = true ∧
      (nestedRecordViews db1 [outerPostRec] viewerDid).1 uriInner = none :=
  ⟨rfl, rfl⟩

theorem nestedRecordViewStep_other (db : Db)
    (actorInfos : String → Option ActorInfo)
    (postInfos : AtUri → Option PostInfo)
    (labelViews : String → List LabelRow)
    (feedGenInfos : AtUri → Option FeedGenInfo)
    (listViews : AtUri → Option ListViewExt)
    (acc : AtUri → Option RecordEmbedView) (x u : AtUri) (h : x ≠ u) :
    nestedRecordViewStep db actorInfos postInfos labelViews feedGenInfos
        listViews acc x u = acc u := by
  unfold nestedRecordViewStep
  repeat' split
  all_goals try cases hfg : feedGenInfos x
  all_goals
    first
      | rfl
      | exact objSet_lookup_ne _ _ _ _ (Ne.symm h)

theorem nestedRecordViewStep_post_missing (db : Db)
    (actorInfos : String → Option ActorInfo)
    (postInfos : AtUri → Option PostInfo)
    (labelViews : String → List LabelRow)
    (feedGenInfos : AtUri → Option FeedGenInfo)
    (listViews : AtUri → Option ListViewExt)
    (acc : AtUri → Option RecordEmbedView) (u : AtUri)
    (hcol : u.collection = appBskyFeedPost) (hp : postInfos u = none) :
    nestedRecordViewStep db actorInfos postInfos labelViews feedGenInfos
        listViews acc u u =
      some (RecordEmbedView.recordVariant (RecordVariant.viewNotFound u)) := by
  have hne1 : appBskyFeedPost ≠ appBskyFeedGenerator := by decide
  have hne2 : appBskyFeedPost ≠ appBskyGraphList := by decide
  unfold nestedRecordViewStep
  rw [hcol, if_neg hne1, if_neg hne2, if_pos rfl, hp]
  exact objSet_lookup_self _ _ _

/-- C2.  The record-embed tagging of `getRecordEmbedView` is exact: the
result is the not-found terminal view iff the referenced post failed to
hydrate, and the blocked terminal view iff the post hydrated and its
author is blocking or blocked by the viewer.  Moreover a record reference
to a post uri that the batched post loader cannot hydrate (deleted after
the skeleton was produced) resolves inside `nestedRecordViews` to the
not-found terminal view — an entry in the returned map, not a failure. -/
theorem recordEmbed_blocked_notFound_tagging :
    (∀ (uri : AtUri) (post : Option PostView)
        (embeds : Option (List PostEmbedView)),
      ((getRecordEmbedView uri post embeds).isNotFoundView = true ↔
        post = none) ∧
        ((getRecordEmbedView uri post embeds).isBlockedView = true ↔
          ∃ p, post = some p ∧
            (p.author.viewer.blocking.isSome = true ∨
              p.author.viewer.blockedBy = true))) ∧
      ∀ (db : Db) (posts : List PostRecord) (requester : String) (u : AtUri),
        u ∈ nestedRecordUris posts →
        u.collection = appBskyFeedPost →
        (getPostInfos db (nestedPostUris (nestedRecordUris posts))
            requester).1 u = none →
        (nestedRecordViews db posts requester).1 u =
          some (RecordEmbedView.recordVariant (RecordVariant.viewNotFound u)) := by
  constructor
  · intro uri post embeds
    cases post with
    | none =>
      refine ⟨⟨fun _ => rfl, fun _ => rfl⟩, ?_, ?_⟩
      · intro hfalse
        simp [getRecordEmbedView, RecordVariant.isBlockedView] at hfalse
      · rintro ⟨p, hp, _⟩
        exact Option.noConfusion hp
    | some p =>
      by_cases hb :
        (p.author.viewer.blocking.isSome || p.author.viewer.blockedBy) = true
      · refine ⟨?_, ?_⟩
        · simp only [getRecordEmbedView]
          rw [if_pos hb]
          constructor
          · intro hfalse
            simp [RecordVariant.isNotFoundView] at hfalse
          · intro hno
            exact Option.noConfusion hno
        · simp only [getRecordEmbedView]
          rw [if_pos hb]
          constructor
          · intro _
            exact ⟨p, rfl, by simpa [Bool.or_eq_true] using hb⟩
          · intro _
            rfl
      · refine ⟨?_, ?_⟩
        · simp only [getRecordEmbedView]
          rw [if_neg hb]
          constructor
          · intro hfalse
            simp [RecordVariant.isNotFoundView] at hfalse
          · intro hno
            exact Option.noConfusion hno
        · simp only [getRecordEmbedView]
          rw [if_neg hb]
          constructor
          · intro hfalse
            simp [RecordVariant.isBlockedView] at hfalse
          · rintro ⟨p', hp', hcond⟩
            rw [Option.some.injEq] at hp'
            subst hp'
            rcases hcond with hc | hc <;> simp [hc] at hb
  · intro db posts requester u humem hcol hp
    have hne : ¬(nestedRecordUris posts).length < 1 := by
      have := List.length_pos.mpr (List.ne_nil_of_mem humem)
      omega
    simp only [nestedRecordViews, if_neg hne]
    exact foldl_lookup_const _ u _
      (fun acc => nestedRecordViewStep_post_missing _ _ _ _ _ _ acc u hcol hp)
      (fun acc x hx => nestedRecordViewStep_other _ _ _ _ _ _ acc x u hx)
      (nestedRecordUris posts) objEmpty humem

/-- Witness for C2: in the empty database (the referenced post was
deleted), the record embed of the concrete batch resolves to the not-found
terminal view. -/
theorem recordEmbed_blocked_notFound_tagging_witness :
    uriInner ∈ nestedRecordUris [outerPostRec] ∧
      (nestedRecordViews db0 [outerPostRec] viewerDid).1 uriInner =
        some (RecordEmbedView.recordVariant (RecordVariant.viewNotFound uriInner)) :=
  ⟨by simp [nestedRecordUris, outerPostRec],
    recordEmbed_blocked_notFound_tagging.2 db0 [outerPostRec] viewerDid uriInner
      (by simp [nestedRecordUris, outerPostRec]) rfl rfl⟩

theorem insertUnique_nodup {α : Type} [DecidableEq α] (l : List α) (x : α)
    (h : l.Nodup) : (insertUnique l x).Nodup := by
  unfold insertUnique
  split
  · exact h
  · next hx => simp [List.nodup_append, h, hx]

theorem nestedDids_fold_nodup :
    ∀ (uris : List AtUri) (acc : List String), acc.Nodup →
      (uris.foldl (fun acc u => insertUnique acc u.hostname) acc).Nodup := by
  intro uris
  induction uris with
  | nil => intro acc h; exact h
  | cons u us ih => intro acc h; exact ih _ (insertUnique_nodup _ _ h)

theorem hydrateFeed_fold_nodup :
    ∀ (l : List FeedRow) (acc : List String × List AtUri),
      acc.1.Nodup → acc.2.Nodup →
      ((l.foldl (fun acc item =>
          let dids := insertUnique acc.1 item.postAuthorDid
          let uris := insertUnique acc.2 item.postUri
          let dids :=
            if item.postAuthorDid ≠ item.originatorDid then
              insertUnique dids item.originatorDid
            else dids
          let next :=
            match item.replyParent with
            | some rp => (insertUnique dids rp.hostname, insertUnique uris rp)
            | none => (dids, uris)
          match item.replyRoot with
          | some rr => (insertUnique next.1 rr.hostname, insertUnique next.2 rr)
          | none => next) acc).1.Nodup ∧
        (l.foldl (fun acc item =>
          let dids := insertUnique acc.1 item.postAuthorDid
          let uris := insertUnique acc.2 item.postUri
          let dids :=
            if item.postAuthorDid ≠ item.originatorDid then
              insertUnique dids item.originatorDid
            else dids
          let next :=
            match item.replyParent with
            | some rp => (insertUnique dids rp.hostname, insertUnique uris rp)
            | none => (dids, uris)
          match item.replyRoot with
          | some rr => (insertUnique next.1 rr.hostname, insertUnique next.2 rr)
          | none => next) acc).2.Nodup) := by
  intro l
  induction l with
  | nil => intro acc h1 h2; exact ⟨h1, h2⟩
  | cons item rest ih =>
    intro acc h1 h2
    rw [List.foldl_cons]
    apply ih
    all_goals
      rcases hrp : item.replyParent with _ | rp <;>
        rcases hrr : item.replyRoot with _ | rr <;>
          simp only [hrp, hrr] <;>
          (try split) <;>
          solve_by_elim [insertUnique_nodup]

/-- C7 (amended).  The identifier sets built through JS `Set`s are
deduplicated: the actor-did set of `nestedRecordViews` and both the
actor-did and post-uri sets of `hydrateFeed` contain no duplicates.  (The
three collection partitions of `nestedRecordViews` are *not* deduplicated;
see the counterexample.) -/
theorem dedup_id_sets_amended :
    (∀ uris : List AtUri, (nestedDids uris).Nodup) ∧
      ∀ items : List FeedRow,
        (hydrateFeedIdSets items).1.Nodup ∧ (hydrateFeedIdSets items).2.Nodup := by
  constructor
  · intro uris
    exact nestedDids_fold_nodup uris [] List.nodup_nil
  · intro items
    exact hydrateFeed_fold_nodup items ([], []) List.nodup_nil List.nodup_nil

/-- Counterexample for C7: two posts embedding the same record produce a
duplicated post partition, and `nestedRecordViews` hands that duplicated
list to `getPostInfos` (visible as the issued `postQuery` call). -/
theorem nestedPostUris_duplicate_cex :
    nestedPostUris (nestedRecordUris [outerPostRec, outerPostRec2]) =
        [uriInner, uriInner] ∧
      ¬(nestedPostUris (nestedRecordUris [outerPostRec, outerPostRec2])).Nodup ∧
      DbCall.postQuery [uriInner, uriInner] ∈
        (nestedRecordViews db1 [outerPostRec, outerPostRec2] viewerDid).2 := by
  refine ⟨rfl, by decide, ?_⟩
  exact List.mem_cons_self _ _

theorem foldl_objSet_lookup_row {κ β : Type} [DecidableEq κ] (key : β → κ) :
    ∀ (rows : List β) (init : κ → Option β) (k : κ) (b : β),
      (rows.foldl (fun acc cur => objSet acc (key cur) cur) init) k = some b →
      init k = some b ∨ (b ∈ rows ∧ key b = k) := by
  intro rows
  induction rows with
  | nil => intro init k b h; exact Or.inl h
  | cons r rs ih =>
    intro init k b h
    rw [List.foldl_cons] at h
    rcases ih _ k b h with h' | ⟨hb, hk⟩
    · by_cases hk : k = key r
      · rw [hk, objSet_lookup_self] at h'
        rw [Option.some.injEq] at h'
        exact Or.inr ⟨h' ▸ List.mem_cons_self r rs, h' ▸ hk.symm⟩
      · rw [objSet_lookup_ne _ _ _ _ hk] at h'
        exact Or.inl h'
    · exact Or.inr ⟨List.mem_cons_of_mem _ hb, hk⟩

theorem actorQueryRows_did_mem (db : Db) (dids : List String)
    (requester : String) (includeSoftDeleted : Bool) :
    ∀ r ∈ actorQueryRows db dids requester includeSoftDeleted, r.did ∈ dids := by
  intro r hr
  simp only [actorQueryRows, List.mem_filterMap] at hr
  obtain ⟨dh, _, hstep⟩ := hr
  split at hstep
  · next hmem =>
    split at hstep
    · exact Option.noConfusion hstep
    · split at hstep
      · rw [Option.some.injEq] at hstep
        subst hstep
        exact hmem
      · exact Option.noConfusion hstep
  · exact Option.noConfusion hstep

theorem postInfoRows_sound (db : Db) (postUris : List AtUri)
    (requester : String) :
    ∀ info ∈ postInfoRows db postUris requester,
      info.uri ∈ postUris ∧
        ∃ p ∈ db.post, p.uri = info.uri ∧
          (∃ rr, findRepoRoot db p.creator = some rr ∧ rr.takedownId = none) ∧
          ∃ rec, findRecordRow db info.uri = some rec ∧ rec.takedownId = none := by
  intro info hinfo
  simp only [postInfoRows, List.mem_filterMap] at hinfo
  obtain ⟨p, hp, hstep⟩ := hinfo
  split at hstep
  · next hmem =>
    split at hstep
    · next blk rr rec hblk hrr hrec =>
      split at hstep
      · next hcond =>
        rw [Option.some.injEq] at hstep
        subst hstep
        exact ⟨hmem, p, hp, rfl, ⟨rr, hrr, hcond.1⟩, ⟨rec, hrec, hcond.2⟩⟩
      · exact Option.noConfusion hstep
    · exact Option.noConfusion hstep
  · exact Option.noConfusion hstep

theorem feedGenInfoRows_uri_mem (db : Db) (generatorUris : List AtUri)
    (requester : String) :
    ∀ r ∈ feedGenInfoRows db generatorUris requester, r.uri ∈ generatorUris := by
  intro r hr
  simp only [feedGenInfoRows, List.mem_filterMap] at hr
  obtain ⟨fg, _, hstep⟩ := hr
  split at hstep
  · next hmem =>
    split at hstep
    · split at hstep
      · rw [Option.some.injEq] at hstep
        subst hstep
        exact hmem
      · exact Option.noConfusion hstep
    · exact Option.noConfusion hstep
  · exact Option.noConfusion hstep

/-- C10.  Every key in a batch-loader result is one of the requested
identifiers, and every post entry arises from a post row whose author
repo-root and record rows exist and are not taken down — filtered-out
entities are simply absent from the map (the codomain carries no error
marker). -/
theorem loader_keys_subset_requested (db : Db) (requester : String) :
    (∀ (dids : List String) (skipLabels includeSoftDeleted : Bool)
        (d : String),
      (((getActorInfos db dids requester skipLabels includeSoftDeleted).1)
            d).isSome = true → d ∈ dids) ∧
      (∀ (postUris : List AtUri) (u : AtUri) (info : PostInfo),
        ((getPostInfos db postUris requester).1) u = some info →
        u ∈ postUris ∧
          ∃ p ∈ db.post, p.uri = u ∧
            (∃ rr, findRepoRoot db p.creator = some rr ∧ rr.takedownId = none) ∧
            ∃ rec, findRecordRow db u = some rec ∧ rec.takedownId = none) ∧
      ∀ (generatorUris : List AtUri) (u : AtUri),
        (((getFeedGeneratorInfos db generatorUris requester).1) u).isSome =
            true → u ∈ generatorUris := by
  refine ⟨?_, ?_, ?_⟩
  · intro dids skipLabels includeSoftDeleted d h
    unfold getActorInfos at h
    split at h
    · exact absurd h (by simp [objEmpty])
    · simp only at h
      rcases foldl_objSet_lookup_mem (fun cur => cur.did)
          (actorInfoFromRow db skipLabels
            (db.labelsFor (if skipLabels then [] else dids))
            (fun did => db.listMutesFor dids requester did)) _ _ _ h with
        h' | ⟨r, hr, hk⟩
    
      · exact absurd h' (by simp [objEmpty])
      · exact hk ▸ actorQueryRows_did_mem db dids requester includeSoftDeleted r hr
  · intro postUris u info h
    unfold getPostInfos at h
    split at h
    · exact Option.noConfusion h
    · simp only at h
      rcases foldl_objSet_lookup_row (fun cur : PostInfo => cur.uri) _ _ _ _ h with
        h' | ⟨hrow, hk⟩
      · exact Option.noConfusion h'
      · have hs := postInfoRows_sound db postUris requester info hrow
        exact hk ▸ hs
  · intro generatorUris u h
    unfold getFeedGeneratorInfos at h
    split at h
    · exact absurd h (by simp [objEmpty])
    · simp only at h
      rw [Option.isSome_iff_exists] at h
      obtain ⟨info, hinfo⟩ := h
      rcases foldl_objSet_lookup_row (fun cur : FeedGenInfo => cur.uri) _ _ _ _
          hinfo with
        h' | ⟨hrow, hk⟩
      · exact Option.noConfusion h'
      · exact hk ▸ feedGenInfoRows_uri_mem db generatorUris requester info hrow

/-- Witness for C10: `db1` hydrates `aliceDid` and `uriInner`, and the
theorem places those keys inside the requested sets. -/
theorem loader_keys_subset_requested_witness :
    (((getActorInfos db1 [aliceDid] viewerDid true false).1 aliceDid).isSome =
        true) ∧ aliceDid ∈ [aliceDid] :=
  ⟨rfl,
    (loader_keys_subset_requested db1 viewerDid).1 [aliceDid] true false
      aliceDid rfl⟩

theorem utf8Encode_append (l1 l2 : List Nat) :
    utf8Encode (l1 ++ l2) = utf8Encode l1 ++ utf8Encode l2 := by
  induction l1 with
  | nil => rfl
  | cons c cs ih => simp [utf8Encode, ih]

theorem utf8EncodeChar_length_pos (c : Nat) :
    1 ≤ (utf8EncodeChar c).length := by
  rw [utf8EncodeChar]
  split_ifs <;> simp

theorem utf8Decode_encodeChar_append (c : Nat) (h : ValidScalar c)
    (bs : List Nat) :
    utf8Decode (utf8EncodeChar c ++ bs) = c :: utf8Decode bs := by
  obtain ⟨hlt, hsur⟩ := h
  by_cases h1 : c < 0x80
  · rw [utf8EncodeChar, if_pos h1, List.cons_append, List.nil_append,
      utf8Decode.eq_def]
    simp only []
    rw [if_pos (by omega : c ≤ 0x7F)]
  · by_cases h2 : c < 0x800
    · rw [utf8EncodeChar, if_neg h1, if_pos h2]
      simp only [List.cons_append, List.nil_append]
      rw [utf8Decode.eq_def]
      simp only []
      rw [if_neg (by omega), if_neg (by omega), if_pos (by omega),
        if_pos (by omega : (0x80 : Nat) ≤ 0x80 + c % 64 ∧ (0x80 + c % 64 : Nat) ≤ 0xBF)]
      have hc : (0xC0 + c / 64 - 0xC0) * 64 + (0x80 + c % 64 - 0x80) = c := by
        omega
      rw [hc]
    · by_cases h3 : c < 0x10000
      · rw [utf8EncodeChar, if_neg h1, if_neg h2, if_pos h3]
        simp only [List.cons_append, List.nil_append]
        rw [utf8Decode.eq_def]
        simp only []
        have hA : (if (0xE0 + c / 4096 : Nat) = 0xE0 then (0xA0 : Nat) else 0x80) ≤
            0x80 + c / 64 % 64 ∧
            (0x80 + c / 64 % 64 : Nat) ≤
              (if (0xE0 + c / 4096 : Nat) = 0xED then (0x9F : Nat) else 0xBF) := by
          constructor
          · split
            · next he => omega
            · omega
          · split
            · next he => omega
            · omega
        rw [if_neg (by omega), if_neg (by omega), if_neg (by omega),
          if_pos (by omega), if_pos hA,
          if_pos (by omega : (0x80 : Nat) ≤ 0x80 + c % 64 ∧ (0x80 + c % 64 : Nat) ≤ 0xBF)]
        have hc : (0xE0 + c / 4096 - 0xE0) * 4096 + (0x80 + c / 64 % 64 - 0x80) * 64 +
            (0x80 + c % 64 - 0x80) = c := by
          omega
        rw [hc]
      · rw [utf8EncodeChar, if_neg h1, if_neg h2, if_neg h3]
        simp only [List.cons_append, List.nil_append]
        rw [utf8Decode.eq_def]
        simp only []
        have hA : (if (0xF0 + c / 0x40000 : Nat) = 0xF0 then (0x90 : Nat) else 0x80) ≤
            0x80 + c / 4096 % 64 ∧
            (0x80 + c / 4096 % 64 : Nat) ≤
              (if (0xF0 + c / 0x40000 : Nat) = 0xF4 then (0x8F : Nat) else 0xBF) := by
          constructor
          · split
            · next he => omega
            · omega
          · split
            · next he => omega
            · omega
        rw [if_neg (by omega), if_neg (by omega), if_neg (by omega),
          if_neg (by omega), if_pos (by omega), if_pos hA,
          if_pos (by omega : (0x80 : Nat) ≤ 0x80 + c / 64 % 64 ∧ (0x80 + c / 64 % 64 : Nat) ≤ 0xBF),
          if_pos (by omega : (0x80 : Nat) ≤ 0x80 + c % 64 ∧ (0x80 + c % 64 : Nat) ≤ 0xBF)]
        have hc : (0xF0 + c / 0x40000 - 0xF0) * 0x40000 +
            (0x80 + c / 4096 % 64 - 0x80) * 4096 +
            (0x80 + c / 64 % 64 - 0x80) * 64 + (0x80 + c % 64 - 0x80) = c := by
          omega
        rw [hc]

theorem utf8Decode_encodeChar_partial (c : Nat) (h : ValidScalar c) (n : Nat)
    (hn1 : 1 ≤ n) (hn2 : n < (utf8EncodeChar c).length) :
    utf8Decode ((utf8EncodeChar c).take n) = [0xFFFD] := by
  obtain ⟨hlt, hsur⟩ := h
  by_cases h1 : c < 0x80
  · rw [utf8EncodeChar, if_pos h1] at hn2
    simp at hn2
    omega
  · by_cases h2 : c < 0x800
    · rw [utf8EncodeChar, if_neg h1, if_pos h2] at hn2 ⊢
      have hn : n = 1 := by simp at hn2; omega
      subst hn
      simp only [List.take_succ_cons, List.take_zero]
      rw [utf8Decode.eq_def]
      simp only []
      rw [if_neg (by omega), if_neg (by omega), if_pos (by omega)]
    · by_cases h3 : c < 0x10000
      · rw [utf8EncodeChar, if_neg h1, if_neg h2, if_pos h3] at hn2 ⊢
        have hn : n = 1 ∨ n = 2 := by simp at hn2; omega
        have hA : (if (0xE0 + c / 4096 : Nat) = 0xE0 then (0xA0 : Nat) else 0x80) ≤
            0x80 + c / 64 % 64 ∧
            (0x80 + c / 64 % 64 : Nat) ≤
              (if (0xE0 + c / 4096 : Nat) = 0xED then (0x9F : Nat) else 0xBF) := by
          constructor
          · split
            · next he => omega
            · omega
          · split
            · next he => omega
            · omega
        rcases hn with hn | hn <;> subst hn
        · simp only [List.take_succ_cons, List.take_zero]
          rw [utf8Decode.eq_def]
          simp only []
          rw [if_neg (by omega), if_neg (by omega), if_neg (by omega),
            if_pos (by omega)]
        · simp only [List.take_succ_cons, List.take_zero]
          rw [utf8Decode.eq_def]
          simp only []
          rw [if_neg (by omega), if_neg (by omega), if_neg (by omega),
            if_pos (by omega), if_pos hA]
      · rw [utf8EncodeChar, if_neg h1, if_neg h2, if_neg h3] at hn2 ⊢
        have hn : n = 1 ∨ n = 2 ∨ n = 3 := by simp at hn2; omega
        have hA : (if (0xF0 + c / 0x40000 : Nat) = 0xF0 then (0x90 : Nat) else 0x80) ≤
            0x80 + c / 4096 % 64 ∧
            (0x80 + c / 4096 % 64 : Nat) ≤
              (if (0xF0 + c / 0x40000 : Nat) = 0xF4 then (0x8F : Nat) else 0xBF) := by
          constructor
          · split
            · next he => omega
            · omega
          · split
            · next he => omega
            · omega
        rcases hn with hn | hn | hn <;> subst hn
        · simp only [List.take_succ_cons, List.take_zero]
          rw [utf8Decode.eq_def]
          simp only []
          rw [if_neg (by omega), if_neg (by omega), if_neg (by omega),
            if_neg (by omega), if_pos (by omega)]
        · simp only [List.take_succ_cons, List.take_zero]
          rw [utf8Decode.eq_def]
          simp only []
          rw [if_neg (by omega), if_neg (by omega), if_neg (by omega),
            if_neg (by omega), if_pos (by omega), if_pos hA]
        · simp only [List.take_succ_cons, List.take_zero]
          rw [utf8Decode.eq_def]
          simp only []
          rw [if_neg (by omega), if_neg (by omega), if_neg (by omega),
            if_neg (by omega), if_pos (by omega), if_pos hA,
            if_pos (by omega : (0x80 : Nat) ≤ 0x80 + c / 64 % 64 ∧ (0x80 + c / 64 % 64 : Nat) ≤ 0xBF)]

theorem utf8Decode_take :
    ∀ (s : List Nat), (∀ c ∈ s, ValidScalar c) → ∀ n : Nat,
      (∃ k, utf8Decode ((utf8Encode s).take n) = s.take k ∧
        (utf8Encode (s.take k)).length ≤ n) ∨
      (∃ k, utf8Decode ((utf8Encode s).take n) = s.take k ++ [0xFFFD] ∧
        (utf8Encode (s.take k)).length < n) := by
  intro s
  induction s with
  | nil =>
    intro _ n
    left
    exact ⟨0, by simp [utf8Encode, utf8Decode], by simp [utf8Encode]⟩
  | cons c cs ih =>
    intro hv n
    have hc : ValidScalar c := hv c (List.mem_cons_self _ _)
    have hcs : ∀ x ∈ cs, ValidScalar x := fun x hx =>
      hv x (List.mem_cons_of_mem _ hx)
    have henc : utf8Encode (c :: cs) = utf8EncodeChar c ++ utf8Encode cs := rfl
    have hL : 1 ≤ (utf8EncodeChar c).length := utf8EncodeChar_length_pos c
    by_cases hn0 : n = 0
    · subst hn0
      left
      exact ⟨0, by simp [utf8Decode], by simp [utf8Encode]⟩
    · by_cases hnL : n < (utf8EncodeChar c).length
      · right
        refine ⟨0, ?_, ?_⟩
        · rw [henc, List.take_append_eq_append_take,
            Nat.sub_eq_zero_of_le (by omega), List.take_zero, List.append_nil,
            utf8Decode_encodeChar_partial c hc n (by omega) hnL]
          simp
        · simp [utf8Encode]
          omega
      · rw [henc, List.take_append_eq_append_take,
          List.take_of_length_le (by omega)]
        rcases ih hcs (n - (utf8EncodeChar c).length) with ⟨k, hk, hkl⟩ | ⟨k, hk, hkl⟩
        · left
          refine ⟨k + 1, ?_, ?_⟩
          · rw [utf8Decode_encodeChar_append c hc, hk, List.take_succ_cons]
          · rw [List.take_succ_cons]
            have : utf8Encode (c :: cs.take k) =
                utf8EncodeChar c ++ utf8Encode (cs.take k) := rfl
            rw [this, List.length_append]
            omega
        · right
          refine ⟨k + 1, ?_, ?_⟩
          · rw [utf8Decode_encodeChar_append c hc, hk, List.take_succ_cons]
            simp
          · rw [List.take_succ_cons]
            have : utf8Encode (c :: cs.take k) =
                utf8EncodeChar c ++ utf8Encode (cs.take k) := rfl
            rw [this, List.length_append]
            omega

theorem truncateUtf8_safe_parts (s : List Nat) (n : Nat)
    (hv : ∀ c ∈ s, ValidScalar c) :
    (utf8Encode (truncateUtf8 s n)).length ≤ n ∧
      ∃ m, truncateUtf8 s n = s.take m := by
  simp only [truncateUtf8]
  by_cases hlen : (utf8Encode s).length > n
  · rw [if_pos hlen]
    rcases utf8Decode_take s hv n with ⟨k, hk, hkl⟩ | ⟨k, hk, hkl⟩
    · rw [hk]
      simp only [stripTrailingReplacement]
      by_cases hlast : (s.take k).getLast? = some 0xFFFD
      · rw [if_pos hlast]
        constructor
        · have hne : s.take k ≠ [] := by
            intro hnil
            rw [hnil] at hlast
            simp at hlast
          have hsplit := List.dropLast_append_getLast hne
          calc (utf8Encode (s.take k).dropLast).length
              ≤ (utf8Encode (s.take k)).length := by
                conv_rhs => rw [← hsplit]
                rw [utf8Encode_append, List.length_append]
                omega
            _ ≤ n := hkl
        · refine ⟨min ((s.take k).length - 1) k, ?_⟩
          rw [List.dropLast_eq_take, List.take_take]
      · rw [if_neg hlast]
        exact ⟨hkl, k, rfl⟩
    · rw [hk]
      simp only [stripTrailingReplacement]
      rw [if_pos (List.getLast?_concat _), List.dropLast_concat]
      exact ⟨by omega, k, rfl⟩
  · rw [if_neg hlen]
    exact ⟨by omega, s.length, (List.take_length s).symm⟩

/-- C6 (amended).  For every well-formed input string and byte budget,
`truncateUtf8` returns at most `n` UTF-8 bytes, never splits a multi-byte
code point (the result is a character-level prefix of the input, so no
garbage is introduced), returns a string of at most `n` bytes unchanged,
and — the amended clause — ends in the replacement character only when the
input itself contains U+FFFD: an input free of U+FFFD yields no trailing
replacement character. -/
theorem truncateUtf8_safe_truncation (s : List Nat) (n : Nat)
    (hv : ∀ c ∈ s, ValidScalar c) :
    (utf8Encode (truncateUtf8 s n)).length ≤ n ∧
      (∃ m, truncateUtf8 s n = s.take m) ∧
      ((utf8Encode s).length ≤ n → truncateUtf8 s n = s) ∧
      ((∀ c ∈ s, c ≠ 0xFFFD) → (truncateUtf8 s n).getLast? ≠ some 0xFFFD) := by
  obtain ⟨h1, m, hm⟩ := truncateUtf8_safe_parts s n hv
  refine ⟨h1, ⟨m, hm⟩, ?_, ?_⟩
  · intro hle
    simp only [truncateUtf8]
    rw [if_neg (by omega)]
  · intro hns
    rw [hm]
    intro hcontra
    have hmem : (0xFFFD : Nat) ∈ s.take m := List.mem_of_mem_getLast? hcontra
    exact hns _ (List.take_subset m s hmem) rfl

/-- Counterexample for C6 as stated: the valid 8-byte string
"a\uFFFD\u{1F600}" (the middle character is a genuine U+FFFD) truncated to
6 bytes cuts the emoji; decoding yields `a, U+FFFD, U+FFFD` and the single
`replace(/\uFFFD$/)` strips only the truncation artifact, leaving the
result ending in the replacement character. -/
theorem truncateUtf8_trailing_replacement_cex :
    truncateUtf8 [0x61, 0xFFFD, 0x1F600] 6 = [0x61, 0xFFFD] ∧
      (truncateUtf8 [0x61, 0xFFFD, 0x1F600] 6).getLast? = some 0xFFFD ∧
      (∀ c ∈ [0x61, 0xFFFD, 0x1F600], ValidScalar c) ∧
      (utf8Encode [0x61, 0xFFFD, 0x1F600]).length = 8 :=
  ⟨by decide, by decide, by decide, by decide⟩

/-- Witness for C6: the amended theorem applied to the concrete valid
string `"a\u{1F600}"` with budget 4 (which cuts the emoji). -/
theorem truncateUtf8_safe_truncation_witness :
    (∀ c ∈ [0x61, 0x1F600], ValidScalar c) ∧
      (utf8Encode (truncateUtf8 [0x61, 0x1F600] 4)).length ≤ 4 ∧
      (∃ m, truncateUtf8 [0x61, 0x1F600] 4 = [0x61, 0x1F600].take m) ∧
      ((utf8Encode [0x61, 0x1F600]).length ≤ 4 →
        truncateUtf8 [0x61, 0x1F600] 4 = [0x61, 0x1F600]) ∧
      ((∀ c ∈ [0x61, 0x1F600], c ≠ 0xFFFD) →
        (truncateUtf8 [0x61, 0x1F600] 4).getLast? ≠ some 0xFFFD) :=
  ⟨by decide, truncateUtf8_safe_truncation [0x61, 0x1F600] 4 (by decide)⟩
